import Mathlib

/-!
Verification of the hippocampus.md context-lifecycle pipeline
(`extension/hippocampus.ts`): message classification, importance scoring,
exponential decay with per-type rates and retention floors, and the
three-tier digest builder with its budget-constrained sparse index.

The embedding follows the typed implementation (`classifyMessage`,
`getBaseImportance`, `estimateTokens`, `extractPreview`, `extractToolName`,
`calculateRetention`, `scoreMessages`, `buildSparseIndexLine`,
`buildHippocampusSummary`, `DEFAULT_CONFIG`).  JavaScript numbers are
modelled as real numbers, counts and token estimates as naturals, and
strings as Lean strings (one `Char` per JS code unit of the texts involved).
-/

namespace Hippocampus

/-- JS `Array.prototype.join(sep)` on a list of strings. -/
def joinStrings (sep : String) : List String → String
  | [] => ""
  | [x] => x
  | x :: y :: ys => x ++ sep ++ joinStrings sep (y :: ys)

/-- JS `s.slice(0, n)` for a nonnegative bound: the first `n` characters. -/
def sliceTo (s : String) (n : ℕ) : String := String.mk (s.data.take n)

/-- JS `haystack.includes(needle)`: contiguous-substring test. -/
def jsIncludes (haystack needle : String) : Bool :=
  decide (needle.data <:+: haystack.data)

/-- JS `s.toLowerCase()`, modelled character-wise. -/
def toLowerStr (s : String) : String := String.mk (s.data.map Char.toLower)

/-- JS `s.toUpperCase()`, modelled character-wise. -/
def toUpperStr (s : String) : String := String.mk (s.data.map Char.toUpper)

/-- JS `s.replace(/\n/g, " ")`: newlines flattened to spaces. -/
def flattenNewlines (s : String) : String :=
  String.mk (s.data.map (fun c => if c = '\n' then ' ' else c))

/-- JS `Math.ceil(n / 4)` for a natural `n` (the 4-chars-per-token estimate). -/
def ceilDiv4 (n : ℕ) : ℕ := (n + 3) / 4

/-- JS `o || d` for an optional string `o`: the string when present and
non-empty (truthy), otherwise the default `d`. -/
def jsOrElse (o : Option String) (d : String) : String :=
  match o with
  | some s => if s = "" then d else s
  | none => d

/-- One entry of a block-structured message `content` array
(TS interface `ContentBlock`, all fields optional). -/
structure ContentBlock where
  type : Option String
  text : Option String
  name : Option String
  tool_use_id : Option String

/-- A message `content` value: either plain text or an array of blocks
(TS `string | ContentBlock[]`). -/
inductive Content
  | str (s : String)
  | blocks (bs : List ContentBlock)

/-- A message from the compaction event (TS interface `CompactionMessage`).
The `toolCalls`/`tool_calls` fields are arrays in TS and only ever tested
for presence (arrays are truthy in JS), so they are modelled as presence
booleans. -/
structure Message where
  role : Option String
  content : Option Content
  toolCalls : Bool
  tool_calls : Bool
  toolName : Option String
  name : Option String
  tool_call_id : Option String

/-- A message with every optional field absent. -/
def emptyMessage : Message :=
  { role := none, content := none, toolCalls := false, tool_calls := false,
    toolName := none, name := none, tool_call_id := none }

/-- Closed enumeration of message classifications (TS type `EntryType`). -/
inductive EntryType
  | tool_result
  | decision
  | user_intent
  | ephemeral
  | context
  | unknown
deriving DecidableEq

/-- The string a TS `EntryType` literal interpolates to. -/
def entryTypeStr : EntryType → String
  | .tool_result => "tool_result"
  | .decision => "decision"
  | .user_intent => "user_intent"
  | .ephemeral => "ephemeral"
  | .context => "context"
  | .unknown => "unknown"

/-- A scored message entry (TS interface `ScoredEntry`). -/
structure ScoredEntry where
  index : ℕ
  type : EntryType
  importance : ℝ
  retention : ℝ
  tokenEstimate : ℕ
  summary : String
  role : String
  contentPreview : String

/-- Configuration (TS interface `HippocampusConfig`), restricted to the
fields the scoring pipeline reads.  `decayRates` is a partial per-type map
with the `decayLambda` fallback, mirroring the untyped source's
`CONFIG.decayRates[type] ?? CONFIG.decayLambda`; the typed variant's total
`Record<EntryType, number>` is the special case in which every type is
mapped.  `maxSparseIndexTokens` is the integer sparse-tier token cap. -/
structure HippocampusConfig where
  decayRates : EntryType → Option ℝ
  decayLambda : ℝ
  sparseThreshold : ℝ
  compressThreshold : ℝ
  retentionFloor : EntryType → Option ℝ
  maxSparseIndexTokens : ℕ

/-- The default configuration (source `DEFAULT_CONFIG`, with the untyped
variant's fallback `decayLambda: 0.12`). -/
def DEFAULT_CONFIG : HippocampusConfig where
  decayRates := fun t =>
    match t with
    | .decision => some 0.03
    | .user_intent => some 0.05
    | .context => some 0.12
    | .tool_result => some 0.20
    | .ephemeral => some 0.35
    | .unknown => some 0.15
  decayLambda := 0.12
  sparseThreshold := 0.25
  compressThreshold := 0.65
  retentionFloor := fun t =>
    match t with
    | .decision => some 0.50
    | .user_intent => some 0.35
    | _ => none
  maxSparseIndexTokens := 2500

/-- Source `extractContent`: plain string content is returned as is; block
content concatenates the truthy `text` fields with single spaces
(`.map(block => block.text || "").filter(Boolean).join(" ")`); anything
else yields the empty string. -/
def extractContent (msg : Message) : String :=
  match msg.content with
  | some (.str s) => s
  | some (.blocks bs) =>
      joinStrings " " ((bs.map (fun b => b.text.getD "")).filter (fun s => s ≠ ""))
  | none => ""

/-- JSON string escaping for one character.  The escapes relevant to the
source's data are covered; only the length of the serialized form is ever
used by the pipeline (token estimation). -/
def jsonEscapeChar (c : Char) : List Char :=
  if c = '"' then ['\\', '"']
  else if c = '\\' then ['\\', '\\']
  else if c = '\n' then ['\\', 'n']
  else [c]

/-- JSON serialization of a string value. -/
def jsonOfString (s : String) : String :=
  "\"" ++ String.mk (s.data.flatMap jsonEscapeChar) ++ "\""

/-- JSON serialization of one content block: the present fields in the
interface's field order. -/
def jsonOfBlock (b : ContentBlock) : String :=
  let fields :=
    (match b.type with | some s => ["\"type\":" ++ jsonOfString s] | none => []) ++
    (match b.text with | some s => ["\"text\":" ++ jsonOfString s] | none => []) ++
    (match b.name with | some s => ["\"name\":" ++ jsonOfString s] | none => []) ++
    (match b.tool_use_id with
      | some s => ["\"tool_use_id\":" ++ jsonOfString s] | none => [])
  "\x7b" ++ joinStrings "," fields ++ "\x7d"

/-- Source `JSON.stringify(msg.content || "")`: absent content serializes
like the empty string, string content as a JSON string, block content as a
JSON array of block objects. -/
def jsonStringify : Option Content → String
  | none => jsonOfString ""
  | some (.str s) => jsonOfString s
  | some (.blocks bs) => "[" ++ joinStrings "," (bs.map jsonOfBlock) ++ "]"

/-- Source `estimateTokens`: one token per four characters (rounded up) of
the extracted text, falling back to the serialized content when extraction
is empty (`const text = content || jsonFallback`). -/
def estimateTokens (msg : Message) : ℕ :=
  let content := extractContent msg
  let jsonFallback := jsonStringify msg.content
  let text := if content = "" then jsonFallback else content
  ceilDiv4 text.length

/-- Source `extractPreview`: the extracted text, truncated to `maxLen`
characters with a trailing ellipsis when longer. -/
def extractPreview (msg : Message) (maxLen : ℕ) : String :=
  let content := extractContent msg
  if content.length ≤ maxLen then content
  else sliceTo content maxLen ++ "…"

/-- Source `extractToolName`: the first truthy one of `toolName`, `name`,
`tool_call_id`, then a scan of the content blocks for a `tool_use` name or
a `tool_result` id, defaulting to `"unknown_tool"`. -/
def toolNameFromBlocks : List ContentBlock → Option String
  | [] => none
  | b :: rest =>
      if b.type = some "tool_use" ∧ jsOrElse b.name "" ≠ "" then b.name
      else if b.type = some "tool_result" ∧ jsOrElse b.tool_use_id "" ≠ "" then
        b.tool_use_id
      else toolNameFromBlocks rest

/-- Source `extractToolName` (see `toolNameFromBlocks`). -/
def extractToolName (msg : Message) : String :=
  if jsOrElse msg.toolName "" ≠ "" then jsOrElse msg.toolName ""
  else if jsOrElse msg.name "" ≠ "" then jsOrElse msg.name ""
  else if jsOrElse msg.tool_call_id "" ≠ "" then jsOrElse msg.tool_call_id ""
  else
    match msg.content with
    | some (.blocks bs) => (toolNameFromBlocks bs).getD "unknown_tool"
    | _ => "unknown_tool"

/-- The tool-call test of the source's `classifyMessage`:
`msg.toolCalls || msg.tool_calls || content.some(c => c.type === "tool_use")`. -/
def hasToolCallMarker (msg : Message) : Bool :=
  msg.toolCalls || msg.tool_calls ||
    (match msg.content with
      | some (.blocks bs) => bs.any (fun b => b.type = some "tool_use")
      | _ => false)

/-- The decision-marker keyword list of the source's `classifyMessage`. -/
def decisionMarkers : List String :=
  ["decision", "decided", "will do", "plan", "approach", "strategy",
   "решил", "план", "буду", "сделаю", "подход"]

/-- Source `classifyMessage`: role-based dispatch with content heuristics
over the lowercased extracted text.  Classification is total; `unknown` is
the catch-all for unrecognized roles. -/
def classifyMessage (msg : Message) : EntryType :=
  let role := jsOrElse msg.role ""
  let content := toLowerStr (extractContent msg)
  if role = "tool" ∨ role = "toolResult" then .tool_result
  else if role = "user" then
    if jsIncludes content "heartbeat" ∨ content = "heartbeat_ok" ∨
        jsIncludes content "/status" ∨ jsIncludes content "no_reply" then
      .ephemeral
    else .user_intent
  else if role = "assistant" then
    if content.length < 50 ∧ (jsIncludes content "no_reply" ∨ jsIncludes content "ok") then
      .ephemeral
    else if decisionMarkers.any (fun marker => jsIncludes content marker) then
      .decision
    else if hasToolCallMarker msg then
      .context
    else .context
  else .unknown

/-- Source `getBaseImportance`: the fixed base-importance table. -/
noncomputable def getBaseImportance : EntryType → ℝ
  | .decision => 0.90
  | .user_intent => 0.80
  | .context => 0.50
  | .tool_result => 0.30
  | .ephemeral => 0.10
  | .unknown => 0.40

/-- Source `calculateRetention`:
`retention = max(floor, importance * exp(-lambda * age))` with the
per-type decay rate (`decayLambda` fallback) and per-type floor
(default `0`). -/
noncomputable def calculateRetention (importance : ℝ) (age : ℕ) (type : EntryType)
    (config : HippocampusConfig) : ℝ :=
  let lambda := (config.decayRates type).getD config.decayLambda
  let floor := (config.retentionFloor type).getD 0
  let raw := importance * Real.exp (-(lambda * age))
  max floor raw

/-- The reference-bonus scan of the source's `scoreMessages`: does the
30-character prefix of this message's 50-character preview occur in the
extracted text of any later message? -/
def isReferencedAt (messages : List Message) (i : ℕ) (msg : Message) : Bool :=
  (messages.drop (i + 1)).any fun later =>
    jsIncludes (extractContent later) (sliceTo (extractPreview msg 50) 30)

/-- The importance of message `i` after the recency bonus and the two size
penalties, but before the reference bonus — the value of the source's
`importance` variable just before the `isReferenced` check. -/
noncomputable def preRefImportance (messages : List Message) (i : ℕ) (msg : Message) : ℝ :=
  let type := classifyMessage msg
  let age := messages.length - 1 - i
  let tokenEstimate := estimateTokens msg
  let importance := getBaseImportance type
  let importance := if age < 5 then min 1 (importance + 0.15) else importance
  let importance := if 10000 < tokenEstimate then max 0.1 (importance - 0.15) else importance
  let importance := if 30000 < tokenEstimate then max 0.1 (importance - 0.10) else importance
  importance

/-- The final importance of message `i`: `preRefImportance` plus the
clamped +0.20 reference bonus when `isReferencedAt` holds. -/
noncomputable def computeImportance (messages : List Message) (i : ℕ) (msg : Message) : ℝ :=
  if isReferencedAt messages i msg then
    min 1 (preRefImportance messages i msg + 0.20)
  else preRefImportance messages i msg

/-- One iteration of the source's `scoreMessages` loop at index `i`. -/
noncomputable def scoreMessage (messages : List Message) (config : HippocampusConfig)
    (i : ℕ) (msg : Message) : ScoredEntry :=
  { index := i
    type := classifyMessage msg
    importance := computeImportance messages i msg
    retention := calculateRetention (computeImportance messages i msg)
      (messages.length - 1 - i) (classifyMessage msg) config
    tokenEstimate := estimateTokens msg
    summary := ""
    role := jsOrElse msg.role "unknown"
    contentPreview := extractPreview msg 120 }

/-- The source's `scoreMessages` loop, walking the list with its index. -/
noncomputable def scoreMessagesGo (messages : List Message) (config : HippocampusConfig) :
    ℕ → List Message → List ScoredEntry
  | _, [] => []
  | i, msg :: rest =>
      scoreMessage messages config i msg :: scoreMessagesGo messages config (i + 1) rest

/-- Source `scoreMessages`: one `ScoredEntry` per message, in order. -/
noncomputable def scoreMessages (messages : List Message) (config : HippocampusConfig) :
    List ScoredEntry :=
  scoreMessagesGo messages config 0 messages

/-- Decimal rendering of a natural `n` scaled by `10^f`: the digits of `n`
padded to at least `f + 1` digits, with a decimal point before the last
`f` digits (the digit-string half of JS `Number.prototype.toFixed`). -/
def decimalString (f : ℕ) (n : ℕ) : String :=
  if f = 0 then Nat.repr n
  else
    let s := (Nat.repr n).data
    let p := if s.length < f + 1 then List.replicate (f + 1 - s.length) '0' ++ s else s
    String.mk (p.take (p.length - f) ++ '.' :: p.drop (p.length - f))

/-- JS `x.toFixed(f)` for the nonnegative values produced by the pipeline:
round `x * 10^f` to the nearest integer (ties up) and insert the decimal
point. -/
noncomputable def toFixed (f : ℕ) (x : ℝ) : String :=
  decimalString f (Int.toNat ⌊x * (10 : ℝ) ^ f + 1 / 2⌋)

/-- JS number-to-string conversion for the configuration values rendered
into the digest's decay-rate metadata comment.  Exact JS printing is a
floating-point shortest-round-trip notion; it is approximated here by
two-decimal fixed rendering.  No verified claim depends on this string. -/
noncomputable def jsNumRepr (x : ℝ) : String := toFixed 2 x

/-- Source `buildSparseIndexLine`: the type-specific pointer line. -/
def buildSparseIndexLine (entry : ScoredEntry) (msg : Message) : String :=
  match entry.type with
  | .tool_result =>
      "[TOOL:" ++ extractToolName msg ++ "] " ++ Nat.repr entry.tokenEstimate ++
        "tok → \"" ++ sliceTo entry.contentPreview 80 ++ "\""
  | .user_intent => "[USER] \"" ++ sliceTo entry.contentPreview 100 ++ "\""
  | .decision => "[DECISION] \"" ++ sliceTo entry.contentPreview 100 ++ "\""
  | .ephemeral => "[EPHEMERAL] " ++ sliceTo entry.contentPreview 40
  | .context | .unknown => "[" ++ toUpperStr entry.role ++ "] " ++ sliceTo entry.contentPreview 80

/-- The mutable state of the tier-assignment loop in
`buildHippocampusSummary`: the three rendered-line lists, their token
counters, and the dropped-entry counter. -/
structure TierState where
  sparse : List String
  compressed : List String
  kept : List String
  sparseTokens : ℕ
  compressedTokens : ℕ
  keptTokens : ℕ
  dropped : ℕ

/-- The all-empty initial tier state. -/
def initialTierState : TierState :=
  { sparse := [], compressed := [], kept := [],
    sparseTokens := 0, compressedTokens := 0, keptTokens := 0, dropped := 0 }

/-- One iteration of the tier-assignment loop of `buildHippocampusSummary`:
below `sparseThreshold` the pointer line is admitted while the running
sparse token total stays within `maxSparseIndexTokens` (otherwise the entry
is counted as dropped); below `compressThreshold` a summary line is kept;
otherwise the 500-character preview is kept in full. -/
noncomputable def tierStep (messages : List Message) (config : HippocampusConfig)
    (st : TierState) (entry : ScoredEntry) : TierState :=
  let msg := messages.getD entry.index emptyMessage
  let line := buildSparseIndexLine entry msg
  if entry.retention < config.sparseThreshold then
    let lineTokens := ceilDiv4 line.length
    if st.sparseTokens + lineTokens ≤ config.maxSparseIndexTokens then
      { st with sparse := st.sparse ++ [line],
                sparseTokens := st.sparseTokens + lineTokens }
    else
      { st with dropped := st.dropped + 1 }
  else if entry.retention < config.compressThreshold then
    { st with
        compressed := st.compressed ++
          ["• (r=" ++ toFixed 2 entry.retention ++ ") " ++ line],
        compressedTokens := st.compressedTokens + ceilDiv4 line.length }
  else
    { st with
        kept := st.kept ++
          ["### [" ++ entryTypeStr entry.type ++ "] (r=" ++ toFixed 2 entry.retention ++
            ")\n" ++ extractPreview msg 500],
        keptTokens := st.keptTokens + entry.tokenEstimate }

/-- The tier-assignment loop of `buildHippocampusSummary` over the scored
entries, in original sequence order. -/
noncomputable def tierFold (messages : List Message) (config : HippocampusConfig)
    (scored : List ScoredEntry) : TierState :=
  scored.foldl (tierStep messages config) initialTierState

/-- The goal-extraction loop of `buildHippocampusSummary`: `user_intent`
entries at or above `sparseThreshold` contribute `- <preview>` bullets with
the preview truncated to 150 characters, newlines flattened, provided the
line is longer than 10 characters. -/
noncomputable def goalsOf (config : HippocampusConfig) : List ScoredEntry → List String
  | [] => []
  | entry :: rest =>
      (if entry.type = EntryType.user_intent ∧ config.sparseThreshold ≤ entry.retention then
        (let goalLine := flattenNewlines (sliceTo entry.contentPreview 150)
         if 10 < goalLine.length then ["- " ++ goalLine] else [])
      else []) ++ goalsOf config rest

/-- The decay-rate/threshold metadata comment of the digest header. -/
noncomputable def decayHeader (config : HippocampusConfig) : String :=
  let ratesJson := "\x7b" ++
    joinStrings ","
      ([EntryType.decision, .user_intent, .context, .tool_result, .ephemeral, .unknown].filterMap
        (fun t => (config.decayRates t).map
          (fun r => "\"" ++ entryTypeStr t ++ "\":" ++ jsNumRepr r))) ++ "\x7d"
  "<!-- decay_λ=" ++ ratesJson ++ " sparse_threshold=" ++ jsNumRepr config.sparseThreshold ++
    " compress_threshold=" ++ jsNumRepr config.compressThreshold ++ " -->"

/-- The per-tier-count metadata comment of the digest header. -/
def metaCountsLine (scored : List ScoredEntry) (st : TierState) : String :=
  "<!-- entries: " ++ Nat.repr scored.length ++
    " | sparse: " ++ Nat.repr st.sparse.length ++
    " | compressed: " ++ Nat.repr st.compressed.length ++
    " | kept: " ++ Nat.repr st.kept.length ++
    " | " ++ ("dropped: " ++ Nat.repr st.dropped) ++ " -->"

/-- Total estimated tokens of the original entries
(`scored.reduce((sum, e) => sum + e.tokenEstimate, 0)`). -/
def totalOriginalTokens (scored : List ScoredEntry) : ℕ :=
  (scored.map ScoredEntry.tokenEstimate).sum

/-- Total rendered tokens across the three tiers. -/
def totalNewTokens (st : TierState) : ℕ :=
  st.sparseTokens + st.compressedTokens + st.keptTokens

/-- The compression-ratio text of the trailing stats comment:
`"∞"` when the original total is zero, otherwise
`(orig / max(new, 1)).toFixed(1)`. -/
noncomputable def ratioText (orig new : ℕ) : String :=
  if 0 < orig then toFixed 1 ((orig : ℝ) / max (new : ℝ) 1) else "∞"

/-- The trailing statistics comment of the digest. -/
noncomputable def statsLine (scored : List ScoredEntry) (st : TierState) : String :=
  "<!-- hippocampus stats: " ++ Nat.repr (totalOriginalTokens scored) ++ "tok → " ++
    Nat.repr (totalNewTokens st) ++ "tok (" ++
    ratioText (totalOriginalTokens scored) (totalNewTokens st) ++ "× compression) -->"

/-- The optional Goal section. -/
noncomputable def goalsBlock (config : HippocampusConfig) (scored : List ScoredEntry) :
    List String :=
  let goals := goalsOf config scored
  if goals ≠ [] then ["## Goal", joinStrings "\n" goals, ""] else []

/-- The optional Prior Context section (spliced for a truthy, i.e.
non-empty, previous summary). -/
def priorBlock (previousSummary : Option String) : List String :=
  match previousSummary with
  | some s => if s = "" then [] else ["## Prior Context", s, ""]
  | none => []

/-- The optional Active Context section. -/
def keptBlock (st : TierState) : List String :=
  if st.kept ≠ [] then
    ["## Active Context (high retention)", joinStrings "\n\n" st.kept, ""]
  else []

/-- The optional Compressed section. -/
def compressedBlock (st : TierState) : List String :=
  if st.compressed ≠ [] then
    ["## Compressed (mid retention — re-fetch if needed)", joinStrings "\n" st.compressed, ""]
  else []

/-- The optional Sparse Index section, with the dropped-entries comment
inside it when any candidate was dropped. -/
def sparseBlock (st : TierState) : List String :=
  if st.sparse ≠ [] then
    ["## Sparse Index (decayed — pointers only)", joinStrings "\n" st.sparse] ++
      (if 0 < st.dropped then
        ["\n<!-- " ++ Nat.repr st.dropped ++ " additional entries dropped (sparse index full) -->"]
      else []) ++ [""]
  else []

/-- The `parts` array of `buildHippocampusSummary`, in push order. -/
noncomputable def buildParts (config : HippocampusConfig) (scored : List ScoredEntry)
    (st : TierState) (previousSummary : Option String) : List String :=
  ["# hippocampus.md Compaction", decayHeader config, metaCountsLine scored st, ""] ++
    goalsBlock config scored ++ priorBlock previousSummary ++ keptBlock st ++
    compressedBlock st ++ sparseBlock st ++ [statsLine scored st]

/-- Source `buildHippocampusSummary`: assign tiers, then join the parts
with newlines. -/
noncomputable def buildHippocampusSummary (scored : List ScoredEntry)
    (messages : List Message) (config : HippocampusConfig)
    (previousSummary : Option String) : String :=
  joinStrings "\n" (buildParts config scored (tierFold messages config scored) previousSummary)

/-- The string `sub` occurs contiguously inside `s`. -/
def containsSubstr (s sub : String) : Prop :=
  ∃ a b : String, s = a ++ sub ++ b

theorem strAppend_assoc (a b c : String) : a ++ b ++ c = a ++ (b ++ c) := by
  apply String.ext
  simp [String.data_append, List.append_assoc]

theorem containsSubstr_of_parts (a sub b : String) : containsSubstr (a ++ sub ++ b) sub :=
  ⟨a, b, rfl⟩

theorem containsSubstr_self (s : String) : containsSubstr s s := by
  refine ⟨"", "", ?_⟩
  apply String.ext
  simp [String.data_append]

theorem containsSubstr_appendRight {s sub : String} (h : containsSubstr s sub)
    (t : String) : containsSubstr (s ++ t) sub := by
  obtain ⟨a, b, rfl⟩ := h
  exact ⟨a, b ++ t, by rw [strAppend_assoc (a ++ sub) b t]⟩

theorem containsSubstr_appendLeft {s sub : String} (h : containsSubstr s sub)
    (t : String) : containsSubstr (t ++ s) sub := by
  obtain ⟨a, b, rfl⟩ := h
  refine ⟨t ++ a, b, ?_⟩
  rw [strAppend_assoc t a sub, strAppend_assoc t (a ++ sub) b,
    strAppend_assoc a sub b]

/-- A substring of a member of a part list occurs in the joined string. -/
theorem containsSubstr_joinStrings (sep : String) :
    ∀ (l : List String) (p : String), p ∈ l →
      ∀ sub, containsSubstr p sub → containsSubstr (joinStrings sep l) sub := by
  intro l
  induction l with
  | nil => intro p hp; cases hp
  | cons x xs ih =>
      intro p hp sub hsub
      cases xs with
      | nil =>
          rcases List.mem_singleton.mp hp with rfl
          simpa [joinStrings] using hsub
      | cons y ys =>
          rcases List.mem_cons.mp hp with rfl | hmem
          · show containsSubstr (p ++ sep ++ joinStrings sep (y :: ys)) sub
            exact containsSubstr_appendRight (containsSubstr_appendRight hsub sep) _
          · show containsSubstr (x ++ sep ++ joinStrings sep (y :: ys)) sub
            exact containsSubstr_appendLeft (ih p hmem sub hsub) _

/-- The digit-string of `decimalString` with one decimal place has a
decimal point in it, so it is never the infinity glyph. -/
theorem decimalString_one_ne_infty (n : ℕ) : decimalString 1 n ≠ "∞" := by
  intro h
  have hmem : '.' ∈ (decimalString 1 n).data := by
    simp only [decimalString, if_neg (by norm_num : (1 : ℕ) ≠ 0)]
    simp
  rw [h] at hmem
  simp at hmem

theorem toFixed_one_ne_infty (x : ℝ) : toFixed 1 x ≠ "∞" :=
  decimalString_one_ne_infty _

/-- Token total of a list of rendered pointer lines. -/
def sparseTokSum (l : List String) : ℕ := (l.map (fun s => ceilDiv4 s.length)).sum

theorem tierStep_sparseTokens_le {messages : List Message} {config : HippocampusConfig}
    {st : TierState} {e : ScoredEntry} (h : st.sparseTokens ≤ config.maxSparseIndexTokens) :
    (tierStep messages config st e).sparseTokens ≤ config.maxSparseIndexTokens := by
  simp only [tierStep]
  split
  · split
    next h2 => exact h2
    next h2 => exact h
  · split
    · exact h
    · exact h

theorem tierStep_sparseTokens_eq_sum {messages : List Message} {config : HippocampusConfig}
    {st : TierState} {e : ScoredEntry} (h : st.sparseTokens = sparseTokSum st.sparse) :
    (tierStep messages config st e).sparseTokens =
      sparseTokSum (tierStep messages config st e).sparse := by
  simp only [tierStep]
  split
  · split
    · simp [sparseTokSum, List.map_append, List.sum_append] at h ⊢
      omega
    · exact h
  · split
    · exact h
    · exact h

theorem tierStep_count {messages : List Message} {config : HippocampusConfig}
    {st : TierState} {e : ScoredEntry} :
    (tierStep messages config st e).sparse.length + (tierStep messages config st e).dropped =
      st.sparse.length + st.dropped +
        (if e.retention < config.sparseThreshold then 1 else 0) := by
  simp only [tierStep]
  split
  · split
    · dsimp only
      simp only [List.length_append, List.length_singleton]
      omega
    · dsimp only
      omega
  · split
    · dsimp only
      omega
    · dsimp only
      omega

/-- Combined loop invariant of the tier-assignment fold: the sparse token
total never exceeds the cap once below it, it equals the token total of the
admitted pointer lines, and admitted plus dropped entries account exactly
for the below-threshold candidates. -/
theorem tierFoldl_invariant (messages : List Message) (config : HippocampusConfig) :
    ∀ (scored : List ScoredEntry) (st : TierState),
      (st.sparseTokens ≤ config.maxSparseIndexTokens →
        (List.foldl (tierStep messages config) st scored).sparseTokens ≤
          config.maxSparseIndexTokens) ∧
      (st.sparseTokens = sparseTokSum st.sparse →
        (List.foldl (tierStep messages config) st scored).sparseTokens =
          sparseTokSum (List.foldl (tierStep messages config) st scored).sparse) ∧
      ((List.foldl (tierStep messages config) st scored).sparse.length +
          (List.foldl (tierStep messages config) st scored).dropped =
        st.sparse.length + st.dropped +
          scored.countP (fun e => decide (e.retention < config.sparseThreshold))) := by
  intro scored
  induction scored with
  | nil => intro st; simp
  | cons e rest ih =>
      intro st
      obtain ⟨ih1, ih2, ih3⟩ := ih (tierStep messages config st e)
      refine ⟨?_, ?_, ?_⟩
      · intro h
        simpa using ih1 (tierStep_sparseTokens_le h)
      · intro h
        simpa using ih2 (tierStep_sparseTokens_eq_sum h)
      · have hc : (List.countP (fun e => decide (e.retention < config.sparseThreshold))
            (e :: rest)) =
            List.countP (fun e => decide (e.retention < config.sparseThreshold)) rest +
              (if e.retention < config.sparseThreshold then 1 else 0) := by
          rw [List.countP_cons]
          by_cases h : e.retention < config.sparseThreshold
          · simp [h]
          · simp [h]
        have hstep := @tierStep_count messages config st e
        simp only [List.foldl_cons]
        rw [hc]
        omega

/-- C2: for every importance value, non-negative age, entry type and
configuration, `calculateRetention` returns exactly
`max(floor(type), importance * e^(-λ(type) * age))`, where `λ(type)` is the
configured per-type decay rate with the `decayLambda` fallback for unmapped
types and `floor(type)` is the configured per-type floor defaulting to 0. -/
theorem c2_retention_formula (importance : ℝ) (age : ℕ) (type : EntryType)
    (config : HippocampusConfig) :
    calculateRetention importance age type config =
      max ((config.retentionFloor type).getD 0)
        (importance *
          Real.exp (-(((config.decayRates type).getD config.decayLambda) * age))) := rfl

/-- C3: whenever a type has a configured retention floor `f`, the retention
computed by `calculateRetention` is at least `f`, for every importance and
age. -/
theorem c3_retention_floor (importance : ℝ) (age : ℕ) (type : EntryType)
    (config : HippocampusConfig) (f : ℝ) (h : config.retentionFloor type = some f) :
    f ≤ calculateRetention importance age type config := by
  simp only [calculateRetention, h, Option.getD_some]
  exact le_max_left _ _

/-- Witness for C3: under the default configuration a `decision` entry at
age 50 retains at least the configured floor 0.50. -/
theorem c3_retention_floor_witness :
    DEFAULT_CONFIG.retentionFloor EntryType.decision = some 0.50 ∧
      0.50 ≤ calculateRetention 0.9 50 EntryType.decision DEFAULT_CONFIG :=
  ⟨rfl, c3_retention_floor 0.9 50 EntryType.decision DEFAULT_CONFIG 0.50 rfl⟩

/-- C6: for fixed importance (a scorer output, hence nonnegative), fixed
type, and a configuration with strictly positive per-type decay rates,
retention is monotonically non-increasing in age. -/
theorem c6_retention_antitone (importance : ℝ) (type : EntryType)
    (config : HippocampusConfig) (a1 a2 : ℕ)
    (hrates : ∀ t, 0 < (config.decayRates t).getD config.decayLambda)
    (himp : 0 ≤ importance) (hage : a1 ≤ a2) :
    calculateRetention importance a2 type config ≤
      calculateRetention importance a1 type config := by
  simp only [calculateRetention]
  apply max_le_max le_rfl
  apply mul_le_mul_of_nonneg_left _ himp
  apply Real.exp_le_exp.mpr
  have hl := hrates type
  have hmul : ((config.decayRates type).getD config.decayLambda) * (a1 : ℝ) ≤
      ((config.decayRates type).getD config.decayLambda) * (a2 : ℝ) :=
    mul_le_mul_of_nonneg_left (by exact_mod_cast hage) hl.le
  linarith

/-- Witness for C6: under the default configuration, a decision entry of
importance 0.5 retains at age 3 no more than at age 1. -/
theorem c6_retention_antitone_witness :
    (∀ t, 0 < (DEFAULT_CONFIG.decayRates t).getD DEFAULT_CONFIG.decayLambda) ∧
      (0 : ℝ) ≤ 0.5 ∧ (1 : ℕ) ≤ 3 ∧
      calculateRetention 0.5 3 EntryType.decision DEFAULT_CONFIG ≤
        calculateRetention 0.5 1 EntryType.decision DEFAULT_CONFIG := by
  have hrates : ∀ t, 0 < (DEFAULT_CONFIG.decayRates t).getD DEFAULT_CONFIG.decayLambda := by
    intro t
    cases t <;> norm_num [DEFAULT_CONFIG]
  exact ⟨hrates, by norm_num, by norm_num,
    c6_retention_antitone 0.5 EntryType.decision DEFAULT_CONFIG 1 3 hrates
      (by norm_num) (by norm_num)⟩

theorem metaCountsLine_contains_dropped (scored : List ScoredEntry) (st : TierState) :
    containsSubstr (metaCountsLine scored st) ("dropped: " ++ Nat.repr st.dropped) :=
  ⟨"<!-- entries: " ++ Nat.repr scored.length ++ " | sparse: " ++ Nat.repr st.sparse.length ++
      " | compressed: " ++ Nat.repr st.compressed.length ++ " | kept: " ++
      Nat.repr st.kept.length ++ " | ",
    " -->", rfl⟩

theorem metaCountsLine_mem_buildParts (config : HippocampusConfig)
    (scored : List ScoredEntry) (st : TierState) (prev : Option String) :
    metaCountsLine scored st ∈ buildParts config scored st prev := by
  simp [buildParts]

/-- C1: the sparse-tier admission is budget-correct.  For the tier state of
any scored entry list under a configuration with a positive cap: the
rendered sparse-tier token total never exceeds `maxSparseIndexTokens` and
is exactly the token total of the admitted pointer lines; every
below-threshold candidate is either admitted or counted in the dropped
counter; and a positive dropped count is rendered into the digest text. -/
theorem c1_sparse_budget (scored : List ScoredEntry) (messages : List Message)
    (config : HippocampusConfig) (prev : Option String) (st : TierState)
    (hst : st = tierFold messages config scored)
    (_hcap : 0 < config.maxSparseIndexTokens) :
    st.sparseTokens ≤ config.maxSparseIndexTokens ∧
      st.sparseTokens = sparseTokSum st.sparse ∧
      st.sparse.length + st.dropped =
        scored.countP (fun e => decide (e.retention < config.sparseThreshold)) ∧
      (0 < st.dropped →
        containsSubstr (buildHippocampusSummary scored messages config prev)
          ("dropped: " ++ Nat.repr st.dropped)) := by
  subst hst
  obtain ⟨h1, h2, h3⟩ := tierFoldl_invariant messages config scored initialTierState
  refine ⟨h1 (Nat.zero_le _), h2 rfl, by simpa [initialTierState] using h3, ?_⟩
  intro _
  unfold buildHippocampusSummary
  exact containsSubstr_joinStrings "\n" _ _
    (metaCountsLine_mem_buildParts config scored _ prev) _
    (metaCountsLine_contains_dropped scored _)

/-- A low-retention entry whose pointer line alone exceeds a cap of one
token, used as the concrete input for the budget and statistics claims. -/
def sampleDropEntry : ScoredEntry :=
  { index := 0, type := .ephemeral, importance := 0.1, retention := 0.1,
    tokenEstimate := 5, summary := "", role := "user",
    contentPreview := "aaaaaaaaaaaa" }

/-- The default configuration with the sparse-tier cap lowered to one
token. -/
def cfgCapOne : HippocampusConfig :=
  { DEFAULT_CONFIG with maxSparseIndexTokens := 1 }

theorem sampleDropFold :
    (tierFold [] cfgCapOne [sampleDropEntry]).sparse = [] ∧
      (tierFold [] cfgCapOne [sampleDropEntry]).compressed = [] ∧
      (tierFold [] cfgCapOne [sampleDropEntry]).kept = [] ∧
      (tierFold [] cfgCapOne [sampleDropEntry]).sparseTokens = 0 ∧
      (tierFold [] cfgCapOne [sampleDropEntry]).compressedTokens = 0 ∧
      (tierFold [] cfgCapOne [sampleDropEntry]).keptTokens = 0 ∧
      (tierFold [] cfgCapOne [sampleDropEntry]).dropped = 1 := by
  have hret : sampleDropEntry.retention < cfgCapOne.sparseThreshold := by
    norm_num [sampleDropEntry, cfgCapOne, DEFAULT_CONFIG]
  have hline : ¬ (initialTierState.sparseTokens +
      ceilDiv4 (buildSparseIndexLine sampleDropEntry
        (List.getD [] sampleDropEntry.index emptyMessage)).length ≤
      cfgCapOne.maxSparseIndexTokens) := by decide
  have hfold : tierFold [] cfgCapOne [sampleDropEntry] =
      tierStep [] cfgCapOne initialTierState sampleDropEntry := rfl
  rw [hfold]
  simp only [tierStep]
  rw [if_pos hret, if_neg hline]
  simp [initialTierState]

/-- Witness for C1 at the concrete one-token-cap input. -/
theorem c1_sparse_budget_witness :
    0 < cfgCapOne.maxSparseIndexTokens ∧
      ((tierFold [] cfgCapOne [sampleDropEntry]).sparseTokens ≤
          cfgCapOne.maxSparseIndexTokens ∧
        (tierFold [] cfgCapOne [sampleDropEntry]).sparseTokens =
          sparseTokSum (tierFold [] cfgCapOne [sampleDropEntry]).sparse ∧
        (tierFold [] cfgCapOne [sampleDropEntry]).sparse.length +
            (tierFold [] cfgCapOne [sampleDropEntry]).dropped =
          [sampleDropEntry].countP
            (fun e => decide (e.retention < cfgCapOne.sparseThreshold)) ∧
        (0 < (tierFold [] cfgCapOne [sampleDropEntry]).dropped →
          containsSubstr (buildHippocampusSummary [sampleDropEntry] [] cfgCapOne none)
            ("dropped: " ++ Nat.repr (tierFold [] cfgCapOne [sampleDropEntry]).dropped))) :=
  ⟨by decide,
    c1_sparse_budget [sampleDropEntry] [] cfgCapOne none _ rfl (by decide)⟩

/-- Counterexample to C4 as stated: at the one-token-cap input, the total
rendered tokens across the three tiers are zero while the original total
is positive, yet the rendered ratio is not the infinity glyph — the code
keys the "∞" case on the original total being zero, not the rendered
total. -/
theorem c4_ratio_counterexample :
    totalNewTokens (tierFold [] cfgCapOne [sampleDropEntry]) = 0 ∧
      0 < totalOriginalTokens [sampleDropEntry] ∧
      ratioText (totalOriginalTokens [sampleDropEntry])
        (totalNewTokens (tierFold [] cfgCapOne [sampleDropEntry])) ≠ "∞" := by
  obtain ⟨hs, hc, hk, h1, h2, h3, hd⟩ := sampleDropFold
  have hnew : totalNewTokens (tierFold [] cfgCapOne [sampleDropEntry]) = 0 := by
    simp [totalNewTokens, h1, h2, h3]
  have horig : totalOriginalTokens [sampleDropEntry] = 5 := by
    simp [totalOriginalTokens, sampleDropEntry]
  refine ⟨hnew, by rw [horig]; norm_num, ?_⟩
  rw [hnew, horig]
  show ratioText 5 0 ≠ "∞"
  unfold ratioText
  rw [if_pos (by norm_num)]
  exact toFixed_one_ne_infty _

/-- C4 amended: in the trailing statistics comment (whose ratio field is
`ratioText` applied to the original and rendered token totals), the ratio
renders as "∞" exactly when the total ORIGINAL estimated tokens are zero;
otherwise it is `(orig / max(rendered, 1)).toFixed(1)`. -/
theorem c4_ratio_amended (orig new : ℕ) : ratioText orig new = "∞" ↔ orig = 0 := by
  unfold ratioText
  by_cases h : 0 < orig
  · rw [if_pos h]
    constructor
    · intro hcontra
      exact absurd hcontra (toFixed_one_ne_infty _)
    · intro h0
      omega
  · rw [if_neg h]
    constructor
    · intro _
      omega
    · intro _
      rfl

/-- C10: when the sparse list comes out empty (every candidate rejected by
the budget) while entries were dropped, the digest omits the entire Sparse
Index section — dropped-entries comment included — and the dropped count
still appears in the header metadata comment. -/
theorem c10_sparse_omitted (scored : List ScoredEntry) (messages : List Message)
    (config : HippocampusConfig) (prev : Option String) (st : TierState)
    (hst : st = tierFold messages config scored)
    (hsp : st.sparse = []) (hdrop : 0 < st.dropped) :
    buildHippocampusSummary scored messages config prev =
      joinStrings "\n"
        (["# hippocampus.md Compaction", decayHeader config, metaCountsLine scored st, ""] ++
          goalsBlock config scored ++ priorBlock prev ++ keptBlock st ++
          compressedBlock st ++ [statsLine scored st]) ∧
      containsSubstr (metaCountsLine scored st) ("dropped: " ++ Nat.repr st.dropped) := by
  subst hst
  constructor
  · have hblock : sparseBlock (tierFold messages config scored) = [] := by
      simp [sparseBlock, hsp]
    unfold buildHippocampusSummary buildParts
    rw [hblock]
    simp
  · exact metaCountsLine_contains_dropped scored _

/-- Witness for C10 at the concrete one-token-cap input. -/
theorem c10_sparse_omitted_witness :
    (tierFold [] cfgCapOne [sampleDropEntry]).sparse = [] ∧
      0 < (tierFold [] cfgCapOne [sampleDropEntry]).dropped ∧
      (buildHippocampusSummary [sampleDropEntry] [] cfgCapOne none =
        joinStrings "\n"
          (["# hippocampus.md Compaction", decayHeader cfgCapOne,
              metaCountsLine [sampleDropEntry] (tierFold [] cfgCapOne [sampleDropEntry]), ""] ++
            goalsBlock cfgCapOne [sampleDropEntry] ++ priorBlock none ++
            keptBlock (tierFold [] cfgCapOne [sampleDropEntry]) ++
            compressedBlock (tierFold [] cfgCapOne [sampleDropEntry]) ++
            [statsLine [sampleDropEntry] (tierFold [] cfgCapOne [sampleDropEntry])]) ∧
        containsSubstr (metaCountsLine [sampleDropEntry] (tierFold [] cfgCapOne [sampleDropEntry]))
          ("dropped: " ++ Nat.repr (tierFold [] cfgCapOne [sampleDropEntry]).dropped)) := by
  have hd : 0 < (tierFold [] cfgCapOne [sampleDropEntry]).dropped := by
    rw [sampleDropFold.2.2.2.2.2.2]
    norm_num
  exact ⟨sampleDropFold.1, hd,
    c10_sparse_omitted [sampleDropEntry] [] cfgCapOne none _ rfl sampleDropFold.1 hd⟩

theorem statsLine_mem_buildParts (config : HippocampusConfig)
    (scored : List ScoredEntry) (st : TierState) (prev : Option String) :
    statsLine scored st ∈ buildParts config scored st prev := by
  simp [buildParts]

/-- C7: the empty message list is valid input — scoring it yields no
entries and the digest built from the result (with no previous summary)
reports zero entries in every tier and a `0tok → 0tok` stats line. -/
theorem c7_empty_digest (config : HippocampusConfig) :
    scoreMessages [] config = [] ∧
      containsSubstr (buildHippocampusSummary (scoreMessages [] config) [] config none)
        "entries: 0 | sparse: 0 | compressed: 0 | kept: 0 | dropped: 0" ∧
      containsSubstr (buildHippocampusSummary (scoreMessages [] config) [] config none)
        "0tok → 0tok" := by
  have hsm : scoreMessages [] config = [] := rfl
  have hfold : tierFold [] config [] = initialTierState := rfl
  refine ⟨hsm, ?_, ?_⟩
  · rw [hsm]
    unfold buildHippocampusSummary
    refine containsSubstr_joinStrings "\n" _ _
      (metaCountsLine_mem_buildParts config [] _ none) _ ?_
    rw [hfold]
    exact ⟨"<!-- ", " -->", by decide⟩
  · rw [hsm]
    unfold buildHippocampusSummary
    refine containsSubstr_joinStrings "\n" _ _
      (statsLine_mem_buildParts config [] _ none) _ ?_
    rw [hfold]
    have hr : ratioText (totalOriginalTokens ([] : List ScoredEntry))
        (totalNewTokens initialTierState) = "∞" := by
      show ratioText 0 0 = "∞"
      unfold ratioText
      rw [if_neg (by norm_num)]
    have hline : statsLine [] initialTierState =
        "<!-- hippocampus stats: 0tok → 0tok (∞× compression) -->" := by
      unfold statsLine
      rw [hr]
      decide
    rw [hline]
    exact ⟨"<!-- hippocampus stats: ", " (∞× compression) -->", by decide⟩

/-- The spec's description of the goal list: the `user_intent` entries at
or above the sparse threshold, in order, each rendered as a dash bullet of
its preview truncated to 150 characters with newlines flattened — subject
to the source's additional minimum-length filter. -/
noncomputable def goalLinesSpec (config : HippocampusConfig) (scored : List ScoredEntry) :
    List String :=
  (scored.filter fun e =>
      decide (e.type = EntryType.user_intent) &&
        decide (config.sparseThreshold ≤ e.retention) &&
        decide (10 < (flattenNewlines (sliceTo e.contentPreview 150)).length)).map
    fun e => "- " ++ flattenNewlines (sliceTo e.contentPreview 150)

/-- A qualifying `user_intent` entry whose preview is too short for the
goal list. -/
def sampleShortGoalEntry : ScoredEntry :=
  { index := 0, type := .user_intent, importance := 0.8, retention := 0.9,
    tokenEstimate := 1, summary := "", role := "user", contentPreview := "hi" }

/-- Counterexample to C5 as stated: a `user_intent` entry with retention
above the sparse threshold contributes no goal line, because its flattened
truncated preview is not longer than 10 characters. -/
theorem c5_goal_counterexample :
    sampleShortGoalEntry.type = EntryType.user_intent ∧
      DEFAULT_CONFIG.sparseThreshold ≤ sampleShortGoalEntry.retention ∧
      goalsOf DEFAULT_CONFIG [sampleShortGoalEntry] = [] := by
  have hthr : DEFAULT_CONFIG.sparseThreshold ≤ sampleShortGoalEntry.retention := by
    norm_num [DEFAULT_CONFIG, sampleShortGoalEntry]
  refine ⟨rfl, hthr, ?_⟩
  simp only [goalsOf]
  rw [if_pos ⟨rfl, hthr⟩, if_neg (by decide)]
  rfl

/-- C5 amended: the goal list is exactly the `user_intent` entries at or
above `sparseThreshold` whose flattened 150-character preview is longer
than 10 characters, each contributing its dash bullet; in particular no
entry below the threshold contributes a goal line. -/
theorem c5_goals_amended (config : HippocampusConfig) (scored : List ScoredEntry) :
    goalsOf config scored = goalLinesSpec config scored := by
  induction scored with
  | nil => rfl
  | cons e rest ih =>
      by_cases h1 : e.type = EntryType.user_intent
      · by_cases h2 : config.sparseThreshold ≤ e.retention
        · by_cases h3 : 10 < (flattenNewlines (sliceTo e.contentPreview 150)).length
          · simp only [goalsOf, goalLinesSpec, List.filter_cons] at ih ⊢
            rw [if_pos ⟨h1, h2⟩, if_pos h3]
            simp [h1, h2, h3, ih]
          · simp only [goalsOf, goalLinesSpec, List.filter_cons] at ih ⊢
            rw [if_pos ⟨h1, h2⟩, if_neg h3]
            simp [h1, h2, h3, ih]
        · simp only [goalsOf, goalLinesSpec, List.filter_cons] at ih ⊢
          rw [if_neg (fun hc => h2 hc.2)]
          simp [h2, ih]
      · simp only [goalsOf, goalLinesSpec, List.filter_cons] at ih ⊢
        rw [if_neg (fun hc => h1 hc.1)]
        simp [h1, ih]

theorem min_add_mem (x : ℝ) (hx0 : 0 ≤ x) (c : ℝ) (hc : 0 ≤ c) :
    0 ≤ min 1 (x + c) ∧ min 1 (x + c) ≤ 1 :=
  ⟨le_min (by norm_num) (by linarith), min_le_left _ _⟩

theorem max_sub_mem (x : ℝ) (hx1 : x ≤ 1) (c : ℝ) (hc : 0 ≤ c) :
    0 ≤ max 0.1 (x - c) ∧ max 0.1 (x - c) ≤ 1 :=
  ⟨le_trans (by norm_num) (le_max_left _ _), max_le (by norm_num) (by linarith)⟩

theorem getBaseImportance_mem (t : EntryType) :
    0 ≤ getBaseImportance t ∧ getBaseImportance t ≤ 1 := by
  cases t <;> constructor <;> norm_num [getBaseImportance]

/-- The recency/size-penalty modifier chain keeps a base value of `[0, 1]`
inside `[0, 1]`, whatever the three conditions decide. -/
theorem modifierChain_mem (b : ℝ) (hb : 0 ≤ b ∧ b ≤ 1) (c1 c2 c3 : Prop)
    [Decidable c1] [Decidable c2] [Decidable c3] :
    0 ≤ (if c3 then
          max 0.1 ((if c2 then max 0.1 ((if c1 then min 1 (b + 0.15) else b) - 0.15)
                    else (if c1 then min 1 (b + 0.15) else b)) - 0.10)
        else
          (if c2 then max 0.1 ((if c1 then min 1 (b + 0.15) else b) - 0.15)
            else (if c1 then min 1 (b + 0.15) else b))) ∧
      (if c3 then
          max 0.1 ((if c2 then max 0.1 ((if c1 then min 1 (b + 0.15) else b) - 0.15)
                    else (if c1 then min 1 (b + 0.15) else b)) - 0.10)
        else
          (if c2 then max 0.1 ((if c1 then min 1 (b + 0.15) else b) - 0.15)
            else (if c1 then min 1 (b + 0.15) else b))) ≤ 1 := by
  have hu : 0 ≤ (if c1 then min 1 (b + 0.15) else b) ∧
      (if c1 then min 1 (b + 0.15) else b) ≤ 1 := by
    by_cases h : c1
    · rw [if_pos h]
      exact min_add_mem b hb.1 0.15 (by norm_num)
    · rw [if_neg h]
      exact hb
  have hv : 0 ≤ (if c2 then max 0.1 ((if c1 then min 1 (b + 0.15) else b) - 0.15)
        else (if c1 then min 1 (b + 0.15) else b)) ∧
      (if c2 then max 0.1 ((if c1 then min 1 (b + 0.15) else b) - 0.15)
        else (if c1 then min 1 (b + 0.15) else b)) ≤ 1 := by
    by_cases h : c2
    · rw [if_pos h]
      exact max_sub_mem _ hu.2 _ (by norm_num)
    · rw [if_neg h]
      exact hu
  by_cases h : c3
  · rw [if_pos h]
    exact max_sub_mem _ hv.2 _ (by norm_num)
  · rw [if_neg h]
    exact hv

theorem preRefImportance_mem (messages : List Message) (i : ℕ) (msg : Message) :
    0 ≤ preRefImportance messages i msg ∧ preRefImportance messages i msg ≤ 1 :=
  modifierChain_mem (getBaseImportance (classifyMessage msg))
    (getBaseImportance_mem _) _ _ _

theorem computeImportance_mem (messages : List Message) (i : ℕ) (msg : Message) :
    0 ≤ computeImportance messages i msg ∧ computeImportance messages i msg ≤ 1 := by
  unfold computeImportance
  split_ifs with h
  · exact min_add_mem _ (preRefImportance_mem messages i msg).1 _ (by norm_num)
  · exact preRefImportance_mem messages i msg

theorem calculateRetention_mem (importance : ℝ) (age : ℕ) (type : EntryType)
    (config : HippocampusConfig)
    (hl : 0 < (config.decayRates type).getD config.decayLambda)
    (hf : ∀ f, config.retentionFloor type = some f → 0 ≤ f ∧ f ≤ 1)
    (h0 : 0 ≤ importance) (h1 : importance ≤ 1) :
    0 ≤ calculateRetention importance age type config ∧
      calculateRetention importance age type config ≤ 1 := by
  simp only [calculateRetention]
  constructor
  · exact le_trans (mul_nonneg h0 (Real.exp_nonneg _)) (le_max_right _ _)
  · apply max_le
    · cases hopt : config.retentionFloor type with
      | none =>
          simp only [Option.getD_none]
          norm_num
      | some f => simpa using (hf f hopt).2
    · have hexp : Real.exp (-(((config.decayRates type).getD config.decayLambda) * age)) ≤ 1 := by
        apply Real.exp_le_one_iff.mpr
        have : 0 ≤ ((config.decayRates type).getD config.decayLambda) * (age : ℝ) :=
          mul_nonneg hl.le (Nat.cast_nonneg age)
        linarith
      calc importance * Real.exp (-(((config.decayRates type).getD config.decayLambda) * age)) ≤
            1 * 1 := by
              apply mul_le_mul h1 hexp (Real.exp_nonneg _) (by norm_num)
        _ = 1 := by norm_num

theorem scoreMessagesGo_mem (messages : List Message) (config : HippocampusConfig) :
    ∀ (l : List Message) (start : ℕ) (e : ScoredEntry),
      e ∈ scoreMessagesGo messages config start l →
      ∃ j msg, e = scoreMessage messages config j msg := by
  intro l
  induction l with
  | nil => intro start e he; simp [scoreMessagesGo] at he
  | cons m rest ih =>
      intro start e he
      rcases List.mem_cons.mp he with rfl | hmem
      · exact ⟨start, m, rfl⟩
      · exact ih (start + 1) e hmem

/-- C8: every scored entry produced by `scoreMessages` — under any
configuration with strictly positive decay rates and floors inside
`[0, 1]` — has importance in `[0, 1]`, retention in `[0, 1]` and a
non-negative (natural) token estimate. -/
theorem c8_scored_bounds (messages : List Message) (config : HippocampusConfig)
    (hrates : ∀ t, 0 < (config.decayRates t).getD config.decayLambda)
    (hfloors : ∀ t f, config.retentionFloor t = some f → 0 ≤ f ∧ f ≤ 1) :
    ∀ e ∈ scoreMessages messages config,
      (0 ≤ e.importance ∧ e.importance ≤ 1) ∧
        (0 ≤ e.retention ∧ e.retention ≤ 1) ∧ 0 ≤ e.tokenEstimate := by
  intro e he
  obtain ⟨j, msg, rfl⟩ := scoreMessagesGo_mem messages config messages 0 e he
  have himp := computeImportance_mem messages j msg
  exact ⟨himp,
    calculateRetention_mem (computeImportance messages j msg) (messages.length - 1 - j)
      (classifyMessage msg) config (hrates _) (fun f hf => hfloors _ f hf) himp.1 himp.2,
    Nat.zero_le _⟩

/-- A concrete two-message conversation. -/
def sampleMessages : List Message :=
  [{ role := some "user", content := some (.str "Build a React app"),
     toolCalls := false, tool_calls := false,
     toolName := none, name := none, tool_call_id := none },
   { role := some "assistant", content := some (.str "I will use Vite as the build tool"),
     toolCalls := false, tool_calls := false,
     toolName := none, name := none, tool_call_id := none }]

theorem DEFAULT_CONFIG_rates_pos :
    ∀ t, 0 < (DEFAULT_CONFIG.decayRates t).getD DEFAULT_CONFIG.decayLambda := by
  intro t
  cases t <;> norm_num [DEFAULT_CONFIG]

theorem DEFAULT_CONFIG_floors_mem :
    ∀ t f, DEFAULT_CONFIG.retentionFloor t = some f → 0 ≤ f ∧ f ≤ 1 := by
  intro t f h
  cases t <;> simp [DEFAULT_CONFIG] at h <;> rw [← h] <;> constructor <;> norm_num

/-- Witness for C8 on a concrete conversation under the default
configuration. -/
theorem c8_scored_bounds_witness :
    (∀ t, 0 < (DEFAULT_CONFIG.decayRates t).getD DEFAULT_CONFIG.decayLambda) ∧
      (∀ t f, DEFAULT_CONFIG.retentionFloor t = some f → 0 ≤ f ∧ f ≤ 1) ∧
      ∀ e ∈ scoreMessages sampleMessages DEFAULT_CONFIG,
        (0 ≤ e.importance ∧ e.importance ≤ 1) ∧
          (0 ≤ e.retention ∧ e.retention ≤ 1) ∧ 0 ≤ e.tokenEstimate :=
  ⟨DEFAULT_CONFIG_rates_pos, DEFAULT_CONFIG_floors_mem,
    c8_scored_bounds sampleMessages DEFAULT_CONFIG DEFAULT_CONFIG_rates_pos
      DEFAULT_CONFIG_floors_mem⟩

theorem scoreMessagesGo_length (messages : List Message) (config : HippocampusConfig) :
    ∀ (l : List Message) (start : ℕ),
      (scoreMessagesGo messages config start l).length = l.length := by
  intro l
  induction l with
  | nil => intro start; rfl
  | cons m rest ih =>
      intro start
      simp [scoreMessagesGo, ih]

theorem scoreMessagesGo_get (messages : List Message) (config : HippocampusConfig) :
    ∀ (l : List Message) (start j : ℕ)
      (h1 : j < (scoreMessagesGo messages config start l).length) (h2 : j < l.length),
      (scoreMessagesGo messages config start l).get ⟨j, h1⟩ =
        scoreMessage messages config (start + j) (l.get ⟨j, h2⟩) := by
  intro l
  induction l with
  | nil =>
      intro start j h1 h2
      simp at h2
  | cons m rest ih =>
      intro start j h1 h2
      cases j with
      | zero => rfl
      | succ k =>
          have hk1 : k < (scoreMessagesGo messages config (start + 1) rest).length := by
            rw [scoreMessagesGo_length]
            simpa using h2
          have hk2 : k < rest.length := by simpa using h2
          have := ih (start + 1) k hk1 hk2
          simp only [scoreMessagesGo, List.get_cons_succ]
          rw [this]
          have harith : start + 1 + k = start + (k + 1) := by omega
          rw [harith]

/-- C9: a message with empty extracted text that is followed by at least
one later message always passes the reference scan (its empty preview
prefix is a substring of every later extracted text), so its scored
importance is the clamped `+0.20` bonus on top of its pre-bonus
importance. -/
theorem c9_empty_reference_bonus (messages : List Message) (config : HippocampusConfig)
    (i : ℕ) (hi : i < messages.length)
    (hempty : extractContent (messages.get ⟨i, hi⟩) = "")
    (hlater : i + 1 < messages.length)
    (hi2 : i < (scoreMessages messages config).length) :
    isReferencedAt messages i (messages.get ⟨i, hi⟩) = true ∧
      ((scoreMessages messages config).get ⟨i, hi2⟩).importance =
        min 1 (preRefImportance messages i (messages.get ⟨i, hi⟩) + 0.20) := by
  have hempty2 : extractContent messages[i] = "" := by simpa using hempty
  have hneedle : sliceTo (extractPreview (messages.get ⟨i, hi⟩) 50) 30 = "" := by
    simp [extractPreview, hempty, hempty2, sliceTo]
  have href : isReferencedAt messages i (messages.get ⟨i, hi⟩) = true := by
    unfold isReferencedAt
    rw [hneedle]
    have hne : messages.drop (i + 1) ≠ [] := by
      intro hcontra
      have hlen := List.drop_eq_nil_iff.mp hcontra
      omega
    cases hd : messages.drop (i + 1) with
    | nil => exact absurd hd hne
    | cons m rest =>
        have hm : jsIncludes (extractContent m) "" = true := by
          simp [jsIncludes, List.nil_infix]
        simp [List.any_cons, hm]
  refine ⟨href, ?_⟩
  have hget : (scoreMessages messages config).get ⟨i, hi2⟩ =
      scoreMessage messages config i (messages.get ⟨i, hi⟩) := by
    have := scoreMessagesGo_get messages config messages 0 i hi2 hi
    simpa using this
  rw [hget]
  show computeImportance messages i (messages.get ⟨i, hi⟩) = _
  unfold computeImportance
  rw [if_pos href]

/-- Witness for C9: a content-free first message followed by a plain text
message receives the reference bonus. -/
theorem c9_empty_reference_bonus_witness :
    extractContent (([emptyMessage] ++ sampleMessages).get ⟨0, by norm_num⟩) = "" ∧
      0 + 1 < ([emptyMessage] ++ sampleMessages).length ∧
      (isReferencedAt ([emptyMessage] ++ sampleMessages) 0
          (([emptyMessage] ++ sampleMessages).get ⟨0, by norm_num⟩) = true ∧
        ((scoreMessages ([emptyMessage] ++ sampleMessages) DEFAULT_CONFIG).get
              ⟨0, by rw [scoreMessages, scoreMessagesGo_length]; norm_num⟩).importance =
          min 1 (preRefImportance ([emptyMessage] ++ sampleMessages) 0
            (([emptyMessage] ++ sampleMessages).get ⟨0, by norm_num⟩) + 0.20)) :=
  ⟨rfl, by norm_num [sampleMessages],
    c9_empty_reference_bonus ([emptyMessage] ++ sampleMessages) DEFAULT_CONFIG 0
      (by norm_num) rfl (by norm_num [sampleMessages])
      (by rw [scoreMessages, scoreMessagesGo_length]; norm_num)⟩

end Hippocampus
